import Mathlib

/-!
# Verification of the iMessage connector core (src/src/index.js)

Shallow embedding of the identity-resolution / conversation-aggregation
engine of the Enhanced iMessage Connector, together with proofs about
the properties stated in its specification.

Conventions of the embedding:
* SQLite rows become Lean structures; a table is a `List` of rows in
  table order, and `LIMIT n` is `List.take n`.
* JavaScript values that may be `null`/`undefined` become `Option`;
  JS truthiness on strings (`null`, `undefined` and `""` are falsy)
  is `jsTruthy`.
* `LIKE '%t%'` on handle identifiers is substring matching (the code
  only ever builds `%…%` patterns from raw user terms).
* Apple timestamps and Unix times are `Int`; `Math.floor` division is
  `Int.fdiv`.
* Exceptions become `Except String`; functions that the code guards
  with try/catch are total functions in the model.
-/

namespace IMessage

/-- JS truthiness for an optional string: `null`/`undefined`/`""` are falsy. -/
def jsTruthy : Option String → Bool
  | none => false
  | some s => s ≠ ""

/-- `s.replace(/[^0-9]/g, '')`: keep only ASCII digits. -/
def digitsOnly (s : String) : String :=
  ⟨s.data.filter Char.isDigit⟩

/-- Boolean contiguous-sublist test on lists of characters. -/
def isSubstrOf (needle : List Char) : List Char → Bool
  | [] => needle.isEmpty
  | c :: rest => needle.isPrefixOf (c :: rest) || isSubstrOf needle rest

/-- `hay LIKE '%needle%'` for wildcard-free needles: substring test. -/
def likeContains (hay needle : String) : Bool :=
  isSubstrOf needle.data hay.data

/-! ## Data model (rows of chat.db consumed by the connector) -/

/-- A row of the `handle` table: `ROWID`, `id` (raw phone/email), `service`. -/
structure Handle where
  rowid : Nat
  id : String
  service : String
  deriving Repr, DecidableEq

/-- A row of the `message` table (the fields the connector selects).
`text` is `none` for SQL NULL; `attributedBody` is the UTF-8 reading of
the encoded body blob (`none` when the column is NULL). -/
structure Msg where
  rowid : Nat
  handle_id : Nat
  date : Int
  text : Option String
  attributedBody : Option (List Char)
  is_from_me : Bool
  service : String
  deriving Repr, DecidableEq

/-- A row of the `chat` table. -/
structure ChatRow where
  rowid : Nat
  display_name : Option String
  chat_identifier : String
  deriving Repr, DecidableEq

/-- A row of the `chat_message_join` table. -/
structure ChatMsgJoin where
  chat_id : Nat
  message_id : Nat
  deriving Repr, DecidableEq

/-- The messages store (chat.db), read-only. -/
structure DB where
  handles : List Handle
  messages : List Msg
  chats : List ChatRow
  chatJoins : List ChatMsgJoin
  deriving Repr

/-- One record returned by `findContactsByName` against the contacts store. -/
structure ContactMatch where
  name : String
  phone : Option String
  email : Option String
  deriving Repr, DecidableEq

/-! ## Timestamp Converter (`calculateAppleTimestamp`) -/

/-- Seconds between 1970-01-01 and 2001-01-01 (constant in the source). -/
def appleEpochInUnixSeconds : Int := 978307200

/-- `calculateAppleTimestamp(daysBack)` with the ambient clock made explicit:
`nowUnixMs` is `Date.now()`.  Mirrors the source line by line:
floor to seconds, shift to the Apple epoch, scale to nanoseconds, and
subtract `daysBack` days in nanoseconds. -/
def calculateAppleTimestamp (nowUnixMs : Int) (daysBack : Int) : Int :=
  let nowInUnixSeconds := nowUnixMs.fdiv 1000
  let nowInAppleSeconds := nowInUnixSeconds - appleEpochInUnixSeconds
  let nowInAppleNanoseconds := nowInAppleSeconds * 1000000000
  let daysBackInNanoseconds := daysBack * 24 * 60 * 60 * 1000000000
  nowInAppleNanoseconds - daysBackInNanoseconds

/-- The store-to-readable direction used throughout the SQL:
`datetime(date/1000000000 + strftime('%s','2001-01-01'), 'unixepoch')`,
kept here as the resulting Unix second count. -/
def appleToUnixSeconds (ts : Int) : Int :=
  ts.fdiv 1000000000 + appleEpochInUnixSeconds

/-! ## Body Decoder (`extractTextFromAttributedBody`) -/

/-- Printable ASCII, the character class `[\x20-\x7E]` of the source regex. -/
def isPrintableAscii (c : Char) : Bool :=
  0x20 ≤ c.toNat && c.toNat ≤ 0x7E

/-- `(l.dropWhile p)` never gets longer than `l`. -/
lemma length_dropWhile_le {α : Type} (p : α → Bool) (l : List α) :
    (l.dropWhile p).length ≤ l.length :=
  (List.dropWhile_suffix p).sublist.length_le

/-- The global regex scan `bodyStr.match(/[\x20-\x7E]{3,}/g)`: walk the
characters left to right; at a printable character take the maximal
printable run, keep it when its length is at least 3, and resume after
the run. -/
def scanRuns : List Char → List (List Char)
  | [] => []
  | c :: rest =>
    if isPrintableAscii c then
      if 3 ≤ ((c :: rest).takeWhile isPrintableAscii).length then
        (c :: rest).takeWhile isPrintableAscii
          :: scanRuns ((c :: rest).dropWhile isPrintableAscii)
      else scanRuns ((c :: rest).dropWhile isPrintableAscii)
    else scanRuns rest
termination_by l => l.length
decreasing_by
  all_goals first
  | · rw [List.dropWhile_cons_of_pos (by assumption)]
      exact Nat.lt_succ_of_le (length_dropWhile_le _ _)
  | · simp

/-- The spec's reading of the decoder: the maximal runs of consecutive
printable ASCII characters, keeping those of length at least 3.
Stated independently of the scan, via splitting on non-printable
characters. -/
def specPrintableRuns (cs : List Char) : List (List Char) :=
  (cs.splitOnP fun c => !isPrintableAscii c).filter fun r => 3 ≤ r.length

/-- `extractTextFromAttributedBody`: `none` for an absent body; otherwise
run the regex scan over the UTF-8 reading of the bytes and, when at least
one run matched, join the runs with single spaces and trim; `none` when
nothing matched.  Total (the source wraps the body in try/catch). -/
def extractTextFromAttributedBody : Option (List Char) → Option String
  | none => none
  | some cs =>
    let runs := scanRuns cs
    if runs.isEmpty then none
    else some ((String.intercalate " " (runs.map fun r => (⟨r⟩ : String))).trim)

/-- The decoder as the specification words it: the runs of three or more
consecutive printable ASCII characters, joined with single spaces and
trimmed; `none` when no such run exists or the input is absent. -/
def specExtractAttributedBody : Option (List Char) → Option String
  | none => none
  | some cs =>
    let runs := specPrintableRuns cs
    if runs.isEmpty then none
    else some ((String.intercalate " " (runs.map fun r => (⟨r⟩ : String))).trim)

/-! ## Per-contact message fetch of `searchAndRead`

The SQL is
`WHERE handle_id IN (…) AND date > ? AND text IS NOT NULL AND text != ''
 ORDER BY date DESC LIMIT ?`. -/

/-- `text IS NOT NULL AND text != ''`. -/
def textPresent (m : Msg) : Bool :=
  match m.text with
  | none => false
  | some t => t ≠ ""

/-- The row filter of the per-contact message query. -/
def msgQual (handleIds : List Nat) (threshold : Int) (m : Msg) : Bool :=
  handleIds.contains m.handle_id && decide (threshold < m.date) && textPresent m

/-- `ORDER BY date DESC`: `a` may precede `b` when `a` is at least as new. -/
def msgGE (a b : Msg) : Prop := b.date ≤ a.date

instance : DecidableRel msgGE := fun a b => inferInstanceAs (Decidable (b.date ≤ a.date))

instance : IsTotal Msg msgGE := ⟨fun a b => le_total b.date a.date⟩

instance : IsTrans Msg msgGE := ⟨fun _ _ _ hab hbc => le_trans hbc hab⟩

/-- The per-canonical-key message query of `searchAndRead`: filter, order
newest first, cap at `limit`. -/
def fetchMessages (db : DB) (handleIds : List Nat) (threshold : Int) (limit : Nat) :
    List Msg :=
  ((db.messages.filter (msgQual handleIds threshold)).insertionSort msgGE).take limit

/-- The fetch filter as the specification words it: handle in the key's
set, inside the window, and non-empty text **or** a present encoded body. -/
def specFetchPred (handleIds : List Nat) (threshold : Int) (m : Msg) : Prop :=
  m.handle_id ∈ handleIds ∧ threshold < m.date ∧
    (jsTruthy m.text = true ∨ m.attributedBody.isSome = true)

/-! ## Message text rendering (decode fallback of `searchAndRead`) -/

/-- The guard `!finalText || finalText.trim() === ''`: absent, empty, or
whitespace-only text. -/
def blankish : Option String → Bool
  | none => true
  | some s => s.data.all (·.isWhitespace)

/-- The per-message text pipeline of `searchAndRead`
(`processedMessages`): when the text is blank and a body is present, try
the decoder and keep its result when truthy; finally
`finalText || '[No text content]'`. -/
def renderText (text : Option String) (body : Option (List Char)) : String :=
  let finalText :=
    if blankish text && body.isSome then
      match extractTextFromAttributedBody body with
      | some b => if b ≠ "" then some b else text
      | none => text
    else text
  match finalText with
  | some s => if s = "" then "[No text content]" else s
  | none => "[No text content]"

/-- A processed message of `searchAndRead` (`date` kept as the Unix
second count that the SQL `datetime(…)` string denotes). -/
structure ProcessedMsg where
  date : Int
  text : String
  is_from_me : Bool
  service : String
  deriving Repr, DecidableEq

/-- One entry of `processedMessages = messages.map(…)`. -/
def processMessage (m : Msg) : ProcessedMsg :=
  { date := appleToUnixSeconds m.date
    text := renderText m.text m.attributedBody
    is_from_me := m.is_from_me
    service := m.service }

/-! ## Contact Name Resolver (`resolveContactName`, `formatPhoneForDisplay`) -/

/-- `formatPhoneForDisplay`: `'Unknown'` for a falsy input; local part
before `@` for an email; `(AAA) BBB-CCCC` for a 10-digit number and for
an 11-digit number starting with `1`; otherwise the input unchanged. -/
def formatPhoneForDisplay (phoneOrEmail : Option String) : String :=
  match phoneOrEmail with
  | none => "Unknown"
  | some s =>
    if s = "" then "Unknown"
    else if s.data.contains '@' then ⟨s.data.takeWhile (· ≠ '@')⟩
    else
      let digits := digitsOnly s
      if digits.length = 10 then
        "(" ++ digits.take 3 ++ ") " ++ (digits.drop 3).take 3 ++ "-" ++ digits.drop 6
      else if digits.length = 11 && digits.startsWith "1" then
        "(" ++ (digits.drop 1).take 3 ++ ") " ++ (digits.drop 4).take 3 ++ "-" ++ digits.drop 7
      else s

/-- The observable outcome of one visit to the contacts store for an
identifier: the store may be unopenable, the lookup may throw, or it may
return a first/last-name row or no row. -/
inductive ContactsLookup where
  | unavailable
  | queryError
  | row (firstName lastName : Option String)
  | noRow
  deriving Repr, DecidableEq

/-- The process-lifetime `contactNameCache`.  Writes only happen on a
miss, so an append-on-write association list models `Map` faithfully. -/
abbrev NameCache := List (String × String)

/-- `cache.get(k)` (with `has` folded in). -/
def cacheGet (cache : NameCache) (k : String) : Option String :=
  (cache.find? fun p => p.1 == k).map Prod.snd

/-- `cache.set(k, v)` after a miss. -/
def cacheSet (cache : NameCache) (k v : String) : NameCache :=
  cache ++ [(k, v)]

/-- `resolveContactName`, with the contacts-store interaction abstracted
as the `ContactsLookup` outcome this call would observe.  Mirrors the
source: cache hit short-circuits; store unavailable, lookup error and
no-name rows all fall back to `formatPhoneForDisplay`; every outcome is
cached under the original identifier. -/
def resolveContactName (cache : NameCache) (store : ContactsLookup)
    (phoneOrEmail : String) : String × NameCache :=
  match cacheGet cache phoneOrEmail with
  | some v => (v, cache)
  | none =>
    match store with
    | .unavailable =>
      let cleaned := formatPhoneForDisplay (some phoneOrEmail)
      (cleaned, cacheSet cache phoneOrEmail cleaned)
    | .queryError =>
      let fallback := formatPhoneForDisplay (some phoneOrEmail)
      (fallback, cacheSet cache phoneOrEmail fallback)
    | .row firstName lastName =>
      if jsTruthy firstName || jsTruthy lastName then
        let displayName := ((firstName.getD "") ++ " " ++ (lastName.getD "")).trim
        (displayName, cacheSet cache phoneOrEmail displayName)
      else
        let displayName := formatPhoneForDisplay (some phoneOrEmail)
        (displayName, cacheSet cache phoneOrEmail displayName)
    | .noRow =>
      let displayName := formatPhoneForDisplay (some phoneOrEmail)
      (displayName, cacheSet cache phoneOrEmail displayName)

/-! ## Keyword Scanner (`analyzeMessageSentimentEnhanced`, individual path) -/

/-- The fixed default hostile-keyword list of the source. -/
def defaultKeywords : List String :=
  ["fuck", "shit", "hate", "angry", "mad", "stupid", "idiot", "asshole", "bitch",
   "damn", "pissed", "annoyed", "irritated", "disgusted", "sick of", "tired of",
   "done with", "over it", "shut up", "leave me alone", "cruel", "attacking",
   "breaking point", "hell", "horrible", "terrible", "awful", "worst", "pathetic",
   "loser", "useless", "worthless", "disappointed", "betrayed", "hurt", "pain"]

/-- SQLite `LOWER` / JS `toLowerCase` restricted to ASCII letters. -/
def lowerAscii (s : String) : String :=
  ⟨s.data.map Char.toLower⟩

/-- `(LOWER(text) LIKE '%kw1%' OR … )`: some keyword, lowercased, occurs
as a substring of the lowercased text. -/
def keywordMatch (keywords : List String) (text : String) : Bool :=
  keywords.any fun kw => likeContains (lowerAscii text) (lowerAscii kw)

/-- The message rows selected by the sentiment query (individual path):
handle in the resolved set, inside the window, not self-sent, non-empty
plain text, and at least one keyword match; ordered newest first.
`keywords = none` models the caller supplying no keyword list
(`keywords || defaultKeywords`). -/
def analyzeSentimentMessages (db : DB) (handleIds : List Nat)
    (keywords : Option (List String)) (threshold : Int) : List Msg :=
  let searchKeywords := match keywords with
    | none => defaultKeywords
    | some ks => ks
  (db.messages.filter fun m =>
      handleIds.contains m.handle_id && decide (threshold < m.date) &&
      !m.is_from_me && textPresent m &&
      keywordMatch searchKeywords (m.text.getD "")).insertionSort msgGE

/-! ## `readConversation` -/

/-- `identifier.startsWith('group:')`. -/
def isGroupIdentifier (ident : String) : Bool :=
  "group:".data.isPrefixOf ident.data

/-- `parseInt(identifier.replace('group:', ''))`, at the character level:
the leading digit run after the 6-character prefix; `none` models `NaN`
(no leading digits). -/
def parseGroupId (ident : String) : Option Nat :=
  let ds := (ident.data.drop 6).takeWhile Char.isDigit
  if ds.isEmpty then none
  else some (ds.foldl (fun n c => n * 10 + (c.toNat - 48)) 0)

/-- The test `/[@+\d\-\(\)]/.test(identifier)` negated: a name-looking
identifier contains none of `@ + digit - ( )`. -/
def looksLikeName (s : String) : Bool :=
  !(s.data.any fun (c : Char) =>
      c == '@' || c == '+' || c.isDigit || c == '-' || c == '(' || c == ')')

/-- `findHandleIdsForContact`: every handle whose raw identifier matches
one of the three LIKE patterns (no LIMIT). -/
def handleMatches (term : String) (h : Handle) : Bool :=
  likeContains h.id term || likeContains h.id (digitsOnly term) ||
    likeContains h.id ("+" ++ digitsOnly term)

/-- `findHandleIdsForContact` returns the matching `ROWID`s. -/
def findHandleIdsForContact (db : DB) (term : String) : List Nat :=
  (db.handles.filter (handleMatches term)).map (·.rowid)

/-- The name-based handle collection of `readConversation`'s individual
path: for each contact-store match, append the handles of its phone and
of its email (when truthy). -/
def nameSearchHandleIds (db : DB) (contactMatches : List ContactMatch) : List Nat :=
  contactMatches.foldl
    (fun acc c =>
      let acc' := match c.phone with
        | some p => if p ≠ "" then acc ++ findHandleIdsForContact db p else acc
        | none => acc
      match c.email with
        | some e => if e ≠ "" then acc' ++ findHandleIdsForContact db e else acc'
        | none => acc')
    []

/-- `[...new Set(l)]`: deduplicate keeping first occurrences. -/
def dedupKeepFirst {α : Type} [BEq α] (l : List α) : List α :=
  l.foldl (fun acc x => if acc.contains x then acc else acc ++ [x]) []

/-- The sender column of the group queries: the joined handle's raw id. -/
def senderIdOf (db : DB) (m : Msg) : Option String :=
  (db.handles.find? fun h => h.rowid == m.handle_id).map (·.id)

/-- A processed message of a group conversation (sender resolved). -/
structure GroupProcessedMsg where
  date : Int
  text : String
  sender : String
  is_from_me : Bool
  service : String
  deriving Repr, DecidableEq

/-- Group-message processing of `readConversation`/`searchAndRead`:
decode fallback plus sender labelling (`'You'` for self). -/
def processGroupMessage (db : DB) (resolveName : Option String → String)
    (m : Msg) : GroupProcessedMsg :=
  { date := appleToUnixSeconds m.date
    text := renderText m.text m.attributedBody
    sender := if m.is_from_me then "You" else resolveName (senderIdOf db m)
    is_from_me := m.is_from_me
    service := m.service }

/-- Membership of a message in a chat, through `chat_message_join`
(`cmj.chat_id = ? AND cmj.message_id = m.ROWID`); a `NaN` chat id
matches nothing. -/
def inChat (db : DB) (chatId : Option Nat) (m : Msg) : Bool :=
  db.chatJoins.any fun j =>
    (match chatId with | some n => j.chat_id == n | none => false) &&
      j.message_id == m.rowid

/-- The group-message query of `readConversation`: join filter, window,
non-empty text, optional sent filter, newest first, capped. -/
def fetchGroupMessages (db : DB) (chatId : Option Nat) (threshold : Int)
    (limit : Nat) (includeSent : Bool) : List Msg :=
  ((db.messages.filter fun m =>
      inChat db chatId m && decide (threshold < m.date) && textPresent m &&
      (includeSent || !m.is_from_me)).insertionSort msgGE).take limit

/-- The individual-message query of `readConversation` (the
`searchAndRead` filter plus the optional sent filter). -/
def fetchIndividualMessages (db : DB) (handleIds : List Nat) (threshold : Int)
    (limit : Nat) (includeSent : Bool) : List Msg :=
  ((db.messages.filter fun m =>
      msgQual handleIds threshold m && (includeSent || !m.is_from_me)).insertionSort
    msgGE).take limit

/-- The fallback group label `` `Group ${chatId}` `` (`NaN` prints as such). -/
def groupFallbackName (chatId : Option Nat) : String :=
  match chatId with
  | some n => "Group " ++ toString n
  | none => "Group NaN"

/-- The conversation value `readConversation` renders. -/
inductive ConversationInfo where
  | group (name : String) (id : Option Nat) (messages : List GroupProcessedMsg)
  | individual (contact : String) (handles : Nat) (messages : List ProcessedMsg)
  deriving Repr, DecidableEq

/-- `readConversation` up to rendering: `Except` models the thrown
`Contact not found` error (caught by the tool dispatcher and surfaced as
an error line).  `contactMatches` is the contacts store's answer for a
name-looking identifier and `resolveName` the name resolver
(verified separately). -/
def readConversation (db : DB) (contactMatches : List ContactMatch)
    (resolveName : Option String → String) (identifier : String)
    (limit : Nat) (threshold : Int) (includeSent : Bool) :
    Except String ConversationInfo :=
  if isGroupIdentifier identifier then
    let chatId := parseGroupId identifier
    let groupInfo : Option ChatRow := match chatId with
      | some n => db.chats.find? fun c => c.rowid == n
      | none => none
    let msgs := fetchGroupMessages db chatId threshold limit includeSent
    let name := match groupInfo with
      | some g => match g.display_name with
        | some n => if n = "" then groupFallbackName chatId else n
        | none => groupFallbackName chatId
      | none => groupFallbackName chatId
    .ok (.group name chatId (msgs.map (processGroupMessage db resolveName)))
  else
    let nameIds := if looksLikeName identifier
      then nameSearchHandleIds db contactMatches else []
    let handleIds₁ := if nameIds.isEmpty
      then findHandleIdsForContact db identifier else nameIds
    if handleIds₁.isEmpty then .error ("Contact not found: " ++ identifier)
    else
      let handleIds := dedupKeepFirst handleIds₁
      let msgs := fetchIndividualMessages db handleIds threshold limit includeSent
      .ok (.individual (resolveName (some identifier)) handleIds.length
        (msgs.map processMessage))

/-! ## Output Formatter (`formatSearchResults`, minimal tier) -/

/-- One conversation entry of the `results` array of `searchAndRead`. -/
inductive SearchResult where
  | individual (contact identifier : String) (handles count : Nat)
      (messages : List ProcessedMsg)
  | group (name : String) (id : Nat) (count : Nat)
      (messages : List GroupProcessedMsg)
  deriving Repr, DecidableEq

/-- The minimal-tier header line of a conversation. -/
def minimalHeader : SearchResult → String
  | .group name _ count _ => "📱 " ++ name ++ " (" ++ toString count ++ " msgs)"
  | .individual contact _ handles count _ =>
      "👤 " ++ contact ++ " (" ++ toString count ++ " msgs, "
        ++ toString handles ++ " handles)"

/-- The minimal-tier message lines: `r.messages.slice(0, 3)`, each line
`"  time sender: text"`; the locale-dependent `toLocaleString` time
rendering is the parameter `ft`. -/
def minimalMessageLines (ft : Int → String) : SearchResult → List String
  | .individual contact _ _ _ msgs =>
      (msgs.take 3).map fun m =>
        "  " ++ ft m.date ++ " " ++ (if m.is_from_me then "You" else contact)
          ++ ": " ++ m.text
  | .group _ _ _ msgs =>
      (msgs.take 3).map fun m =>
        "  " ++ ft m.date ++ " " ++ m.sender ++ ": " ++ m.text

/-- One conversation block: `` `${header}\n${messagePreview}` ``. -/
def minimalBlock (ft : Int → String) (r : SearchResult) : String :=
  minimalHeader r ++ "\n" ++ String.intercalate "\n" (minimalMessageLines ft r)

/-- The whole minimal-tier output: blocks joined with blank lines. -/
def formatSearchResultsMinimal (ft : Int → String)
    (results : List SearchResult) : String :=
  String.intercalate "\n\n" (results.map (minimalBlock ft))

/-- The texts of a conversation entry's fetched messages. -/
def resultTexts : SearchResult → List String
  | .individual _ _ _ _ msgs => msgs.map (·.text)
  | .group _ _ _ msgs => msgs.map (·.text)

/-- The number of fetched messages carried by a conversation entry. -/
def resultMessageCount : SearchResult → Nat
  | .individual _ _ _ _ msgs => msgs.length
  | .group _ _ _ msgs => msgs.length

/-! ## Conversation Aggregator (`searchAndRead`, individual contacts)

Per search term, the handle query is
`SELECT ROWID, id, service FROM handle WHERE id LIKE ? OR id LIKE ? OR
id LIKE ? LIMIT 10`; matched handles are grouped in the insertion-order
map `contactGroups` keyed by `handle.id`, each key holding the distinct
`ROWID`s seen for it. -/

/-- One term's handle query (the three LIKE patterns, capped at 10 rows). -/
def handlesForTerm (db : DB) (term : String) : List Handle :=
  (db.handles.filter (handleMatches term)).take 10

/-- Adding one matched handle to `contactGroups`: create the key on
first sight, and append the `ROWID` only when not already present. -/
def insertHandle (groups : List (String × List Nat)) (hid : String) (rid : Nat) :
    List (String × List Nat) :=
  if groups.any (fun p => p.1 == hid) then
    groups.map fun p =>
      if p.1 == hid then (p.1, if p.2.contains rid then p.2 else p.2 ++ [rid])
      else p
  else
    groups ++ [(hid, [rid])]

/-- The grouping loop over all unique search terms. -/
def buildContactGroups (db : DB) (terms : List String) : List (String × List Nat) :=
  terms.foldl
    (fun g t => (handlesForTerm db t).foldl (fun g h => insertHandle g h.id h.rowid) g)
    []

/-- `searchTerms`: the query itself plus every truthy phone and email of
the contacts-store name matches, deduplicated keeping first occurrences. -/
def searchTermsOf (query : String) (contactMatches : List ContactMatch) :
    List String :=
  dedupKeepFirst (contactMatches.foldl
    (fun acc c =>
      let acc' := match c.phone with
        | some p => if p ≠ "" then acc ++ [p] else acc
        | none => acc
      match c.email with
        | some e => if e ≠ "" then acc' ++ [e] else acc'
        | none => acc')
    [query])

/-- One individual entry of `searchAndRead`'s `results`. -/
structure IndividualResult where
  contact : String
  identifier : String
  handles : Nat
  count : Nat
  messages : List ProcessedMsg
  deriving Repr, DecidableEq

/-- The per-canonical-key body of the `contactGroups` loop: skip empty
handle sets, fetch and process the key's messages, skip keys with no
messages, otherwise emit one entry with `handles = handleIds.length`. -/
def individualEntry (db : DB) (resolveName : String → String) (threshold : Int)
    (limit : Nat) (g : String × List Nat) : Option IndividualResult :=
  if g.2.isEmpty then none
  else
    let msgs := fetchMessages db g.2 threshold limit
    if msgs.isEmpty then none
    else some
      { contact := resolveName g.1
        identifier := g.1
        handles := g.2.length
        count := (msgs.map processMessage).length
        messages := msgs.map processMessage }

/-- The individual-contact phase of `searchAndRead`: group, then emit
one entry per canonical key that has messages.  `contactMatches` is the
contacts store's name-search answer and `resolveName` the (separately
verified) display-name resolver. -/
def searchAndReadIndividuals (db : DB) (contactMatches : List ContactMatch)
    (resolveName : String → String) (query : String) (limit : Nat)
    (threshold : Int) : List IndividualResult :=
  (buildContactGroups db (searchTermsOf query contactMatches)).filterMap
    (individualEntry db resolveName threshold limit)

end IMessage

namespace IMessage

/-! ## C4: decoder refinement -/

private lemma splitOn_notPrintable (l : List Char) :
    l.splitOnP (fun c => !isPrintableAscii c)
      = (l.takeWhile isPrintableAscii) ::
        (match l.dropWhile isPrintableAscii with
         | [] => []
         | _ :: t => t.splitOnP (fun c => !isPrintableAscii c)) := by
  induction l with
  | nil => simp [List.splitOnP_nil]
  | cons a t ih =>
    by_cases h : isPrintableAscii a
    · rw [List.splitOnP_cons, if_neg (by simp [h]), ih,
        List.takeWhile_cons_of_pos h, List.dropWhile_cons_of_pos h]
      simp [List.modifyHead]
    · rw [List.splitOnP_cons, if_pos (by simp [h]),
        List.takeWhile_cons_of_neg h, List.dropWhile_cons_of_neg h]

private lemma dropWhile_head_false {α : Type} (p : α → Bool) :
    ∀ (l : List α) (d : α) (t : List α), l.dropWhile p = d :: t → p d = false := by
  intro l
  induction l with
  | nil => intro d t h; simp [List.dropWhile] at h
  | cons a l ih =>
    intro d t h
    rw [List.dropWhile_cons] at h
    by_cases hp : p a
    · rw [if_pos hp] at h; exact ih d t h
    · rw [if_neg hp] at h
      cases h
      simpa using hp

private lemma scanRuns_eq_aux :
    ∀ n (cs : List Char), cs.length ≤ n → scanRuns cs = specPrintableRuns cs := by
  intro n
  induction n with
  | zero =>
    intro cs h
    have : cs = [] := List.length_eq_zero.mp (Nat.le_zero.mp h)
    subst this
    simp [scanRuns, specPrintableRuns, List.splitOnP_nil]
  | succ n ih =>
    intro cs h
    match cs with
    | [] => simp [scanRuns, specPrintableRuns, List.splitOnP_nil]
    | c :: rest =>
      by_cases hc : isPrintableAscii c
      · have hrhs : specPrintableRuns (c :: rest)
            = (if 3 ≤ ((c :: rest).takeWhile isPrintableAscii).length
                then [(c :: rest).takeWhile isPrintableAscii] else [])
              ++ (match (c :: rest).dropWhile isPrintableAscii with
                  | [] => []
                  | _ :: t => specPrintableRuns t) := by
          unfold specPrintableRuns
          rw [splitOn_notPrintable, List.filter_cons]
          cases hdrop : (c :: rest).dropWhile isPrintableAscii with
          | nil =>
            by_cases hlen : 3 ≤ ((c :: rest).takeWhile isPrintableAscii).length
            · rw [if_pos (by simpa using hlen), if_pos hlen]; rfl
            · rw [if_neg (by simpa using hlen), if_neg hlen]; rfl
          | cons d t =>
            by_cases hlen : 3 ≤ ((c :: rest).takeWhile isPrintableAscii).length
            · rw [if_pos (by simpa using hlen), if_pos hlen]; rfl
            · rw [if_neg (by simpa using hlen), if_neg hlen]; rfl
        rw [hrhs, scanRuns, if_pos hc]
        have hscan : scanRuns ((c :: rest).dropWhile isPrintableAscii)
            = (match (c :: rest).dropWhile isPrintableAscii with
               | [] => []
               | _ :: t => specPrintableRuns t) := by
          cases hdrop : (c :: rest).dropWhile isPrintableAscii with
          | nil => simp [scanRuns]
          | cons d t =>
            have hd : isPrintableAscii d = false :=
              dropWhile_head_false isPrintableAscii (c :: rest) d t hdrop
            have ht : t.length ≤ n := by
              have h1 : (d :: t).length ≤ (c :: rest).length :=
                hdrop ▸ length_dropWhile_le _ _
              simp only [List.length_cons] at h1 h
              omega
            rw [scanRuns, if_neg (by simp [hd])]
            exact ih t ht
        by_cases hlen : 3 ≤ ((c :: rest).takeWhile isPrintableAscii).length
        · rw [if_pos hlen, if_pos hlen, hscan]
          rfl
        · rw [if_neg hlen, if_neg hlen, hscan]
          rfl
      · rw [scanRuns, if_neg hc]
        have hrest : rest.length ≤ n := by
          simp only [List.length_cons] at h; omega
        rw [ih rest hrest]
        unfold specPrintableRuns
        rw [List.splitOnP_cons, if_pos (by simp [hc]), List.filter_cons]
        rfl

/-- **C4.** The decoder agrees everywhere with the specification's
description: it returns the maximal runs of three or more consecutive
printable ASCII characters of the UTF-8 reading, joined with single
spaces and trimmed; it returns `none` when no such run exists or the
input is absent; and it is a total function (the model of "never
raises"). -/
theorem extractTextFromAttributedBody_eq_spec (ob : Option (List Char)) :
    extractTextFromAttributedBody ob = specExtractAttributedBody ob := by
  cases ob with
  | none => rfl
  | some cs =>
    simp only [extractTextFromAttributedBody, specExtractAttributedBody]
    rw [scanRuns_eq_aux cs.length cs le_rfl]

/-! ## C5 theorems -/

/-- **C5.** At a fixed clock reading, `calculateAppleTimestamp` is strictly
decreasing in `daysBack` (so in particular `threshold 0 > threshold d` for
`d > 0`), and `threshold 0` is the current time (at the second resolution
the code computes) expressed in the store's native nanosecond epoch:
converting it back with the SQL epoch formula recovers the current Unix
second. -/
theorem calculateAppleTimestamp_strict_anti (nowUnixMs d₁ d₂ : Int)
    (h : d₁ < d₂) :
    calculateAppleTimestamp nowUnixMs d₂ < calculateAppleTimestamp nowUnixMs d₁ ∧
    appleToUnixSeconds (calculateAppleTimestamp nowUnixMs 0) = nowUnixMs.fdiv 1000 := by
  constructor
  · have key : calculateAppleTimestamp nowUnixMs d₁ - calculateAppleTimestamp nowUnixMs d₂
        = (d₂ - d₁) * 86400000000000 := by
      unfold calculateAppleTimestamp; ring
    have pos : 0 < (d₂ - d₁) * 86400000000000 :=
      mul_pos (by omega) (by norm_num)
    omega
  · show ((nowUnixMs.fdiv 1000 - appleEpochInUnixSeconds) * 1000000000
        - 0 * 24 * 60 * 60 * 1000000000).fdiv 1000000000 + appleEpochInUnixSeconds
        = nowUnixMs.fdiv 1000
    have h9 : (1000000000 : Int) ≠ 0 := by norm_num
    rw [show (0 : Int) * 24 * 60 * 60 * 1000000000 = 0 by ring, Int.sub_zero,
      Int.mul_fdiv_cancel _ h9]
    ring

/-- Witness for C5 at a concrete clock and window sizes. -/
theorem calculateAppleTimestamp_strict_anti_witness :
    calculateAppleTimestamp 1760000000000 30 < calculateAppleTimestamp 1760000000000 1 ∧
    appleToUnixSeconds (calculateAppleTimestamp 1760000000000 0) = 1760000000 :=
  calculateAppleTimestamp_strict_anti 1760000000000 1 30 (by norm_num)

/-! ## C2: the per-canonical-key fetch -/

/-- A message satisfying the query conditions, in `Prop` form. -/
def fetchCond (handleIds : List Nat) (threshold : Int) (m : Msg) : Prop :=
  m.handle_id ∈ handleIds ∧ threshold < m.date ∧ ∃ t, m.text = some t ∧ t ≠ ""

lemma msgQual_iff (handleIds : List Nat) (threshold : Int) (m : Msg) :
    msgQual handleIds threshold m = true ↔ fetchCond handleIds threshold m := by
  unfold msgQual fetchCond textPresent
  cases m.text with
  | none => simp
  | some t => simp [and_assoc]

/-- **C2 (amended).** For every canonical key, the fetched list contains
only messages of the store whose handle id is in the key's set, whose
timestamp is strictly above the threshold, and whose **plain text** is
non-null and non-empty; it is ordered newest first and capped at
`limit`; and when at most `limit` rows qualify, every qualifying message
is fetched.  (The spec's "or a present encoded body" disjunct is not in
the code: see the counterexample.) -/
theorem fetchMessages_characterization (db : DB) (handleIds : List Nat)
    (threshold : Int) (limit : Nat) :
    (∀ m ∈ fetchMessages db handleIds threshold limit,
        m ∈ db.messages ∧ fetchCond handleIds threshold m)
  ∧ (fetchMessages db handleIds threshold limit).Sorted msgGE
  ∧ (fetchMessages db handleIds threshold limit).length ≤ limit
  ∧ ((db.messages.filter (msgQual handleIds threshold)).length ≤ limit →
      ∀ m ∈ db.messages, fetchCond handleIds threshold m →
        m ∈ fetchMessages db handleIds threshold limit) := by
  refine ⟨?_, ?_, ?_, ?_⟩
  · intro m hm
    have hsort : m ∈ (db.messages.filter (msgQual handleIds threshold)).insertionSort msgGE :=
      List.mem_of_mem_take hm
    have hfil : m ∈ db.messages.filter (msgQual handleIds threshold) :=
      (List.mem_insertionSort msgGE).mp hsort
    have := List.mem_filter.mp hfil
    exact ⟨this.1, (msgQual_iff _ _ _).mp this.2⟩
  · exact (List.sorted_insertionSort msgGE _).sublist (List.take_sublist _ _)
  · exact List.length_take_le _ _
  · intro hlen m hm hcond
    have hq : msgQual handleIds threshold m = true := (msgQual_iff _ _ _).mpr hcond
    have hfil : m ∈ db.messages.filter (msgQual handleIds threshold) :=
      List.mem_filter.mpr ⟨hm, hq⟩
    have hsort : m ∈ (db.messages.filter (msgQual handleIds threshold)).insertionSort msgGE :=
      (List.mem_insertionSort msgGE).mpr hfil
    have hall : ((db.messages.filter (msgQual handleIds threshold)).insertionSort
        msgGE).take limit
        = (db.messages.filter (msgQual handleIds threshold)).insertionSort msgGE := by
      apply List.take_of_length_le
      rw [List.length_insertionSort]
      exact hlen
    unfold fetchMessages
    rw [hall]
    exact hsort

/-- Witness for C2: a concrete store where everything qualifies. -/
def c2Msg : Msg :=
  { rowid := 7, handle_id := 1, date := 5, text := some "hi"
    attributedBody := none, is_from_me := false, service := "iMessage" }

/-- Witness store for C2. -/
def c2Db : DB :=
  { handles := [⟨1, "+15551234567", "iMessage"⟩]
    messages := [c2Msg], chats := [], chatJoins := [] }

theorem fetchMessages_characterization_witness :
    (c2Db.messages.filter (msgQual [1] 0)).length ≤ 10 ∧
    c2Msg ∈ c2Db.messages ∧ fetchCond [1] 0 c2Msg ∧
    c2Msg ∈ fetchMessages c2Db [1] 0 10 := by
  have h := (fetchMessages_characterization c2Db [1] 0 10).2.2.2
  refine ⟨by decide, by decide, ⟨by decide, by decide, "hi", rfl, by decide⟩, ?_⟩
  exact h (by decide) c2Msg (by decide) ⟨by decide, by decide, "hi", rfl, by decide⟩

/-- A message carrying only an encoded body: NULL text, decodable body. -/
def c2BodyOnlyMsg : Msg :=
  { rowid := 9, handle_id := 1, date := 5, text := none
    attributedBody := some ['a', 'b', 'c'], is_from_me := false, service := "iMessage" }

/-- Store holding only the body-only message. -/
def c2BodyOnlyDb : DB :=
  { handles := [⟨1, "+15551234567", "iMessage"⟩]
    messages := [c2BodyOnlyMsg], chats := [], chatJoins := [] }

/-- **C2 counterexample.** A message with NULL plain text and a present
(perfectly decodable) encoded body satisfies the spec's fetch predicate
("non-empty text OR a present encoded body") inside the window, yet the
code fetches nothing for its key: the SQL filter demands non-empty plain
text. -/
theorem fetchMessages_spec_counterexample :
    specFetchPred [1] 0 c2BodyOnlyMsg ∧
    c2BodyOnlyMsg ∈ c2BodyOnlyDb.messages ∧
    fetchMessages c2BodyOnlyDb [1] 0 10 = [] := by
  refine ⟨⟨by decide, by decide, by decide⟩, by decide, by decide⟩

/-! ## C3: decode fallback and the sentinel -/

/-- **C3 (amended).** For a fetched message (whose stored text is
guaranteed non-empty by the SQL filter): the rendered text is never the
*empty* string; when the text is blank and decoding yields a truthy
result, that result is rendered; when the text is blank and decoding
yields nothing, the rendered text is the original *blank* text — not the
sentinel, which is unreachable for fetched messages. -/
theorem renderText_for_fetched (t : String) (ht : t ≠ "") (body : List Char) :
    renderText (some t) (some body) ≠ ""
  ∧ (blankish (some t) = true →
      ∀ b, extractTextFromAttributedBody (some body) = some b → b ≠ "" →
        renderText (some t) (some body) = b)
  ∧ (blankish (some t) = true →
      extractTextFromAttributedBody (some body) = none →
        renderText (some t) (some body) = t) := by
  unfold renderText
  refine ⟨?_, ?_, ?_⟩
  · by_cases hb : blankish (some t) && (some body : Option (List Char)).isSome
    · rw [if_pos hb]
      cases hx : extractTextFromAttributedBody (some body) with
      | none => simp [ht]
      | some b =>
        by_cases hbe : b = ""
        · simp [hbe, ht]
        · simp [hbe, ht]
    · rw [if_neg hb]
      simp [ht]
  · intro hbl b hx hbne
    rw [if_pos (by simp [hbl]), hx]
    simp [hbne]
  · intro hbl hx
    rw [if_pos (by simp [hbl]), hx]
    simp [ht]

/-- Witness for C3's amended statement at a blank text and a decodable body. -/
theorem renderText_for_fetched_witness :
    (" " : String) ≠ "" ∧ renderText (some " ") (some ['h', 'e', 'l', 'l', 'o']) ≠ "" :=
  ⟨by decide, (renderText_for_fetched " " (by decide) ['h', 'e', 'l', 'l', 'o']).1⟩

/-- **C3 counterexample.** A fetched message whose stored text is the
blank string `" "` (it passes `text != ''`) and whose encoded body
decodes to nothing renders as the blank string `" "` — not the
sentinel — so the rendered text *can* be blank, contradicting the claim. -/
theorem renderText_blank_counterexample :
    renderText (some " ") (some [Char.ofNat 1]) = " " ∧
    (" " : String).data.all (·.isWhitespace) = true ∧
    (" " : String) ≠ "[No text content]" := by
  have hscan : scanRuns [Char.ofNat 1] = [] := by
    rw [scanRuns, if_neg (by decide)]
    rw [scanRuns]
  have hextract : extractTextFromAttributedBody (some [Char.ofNat 1]) = none := by
    simp [extractTextFromAttributedBody, hscan]
  refine ⟨?_, by decide, by decide⟩
  unfold renderText
  rw [if_pos (by decide), hextract]
  simp

/-! ## C6: the name resolver never raises and caches every outcome -/

private lemma cacheGet_set_self (cache : NameCache) (k v : String)
    (h : cacheGet cache k = none) :
    cacheGet (cacheSet cache k v) k = some v := by
  unfold cacheGet cacheSet
  unfold cacheGet at h
  induction cache with
  | nil => simp
  | cons p t ih =>
    rw [List.cons_append]
    by_cases hp : p.1 == k
    · exfalso
      simp only [List.find?, hp] at h
      simp at h
    · simp only [List.find?, hp] at h ⊢
      exact ih h

private lemma resolveContactName_caches (cache : NameCache)
    (store : ContactsLookup) (id : String) :
    cacheGet (resolveContactName cache store id).2 id
      = some (resolveContactName cache store id).1 := by
  unfold resolveContactName
  cases hget : cacheGet cache id with
  | some v => simpa using hget
  | none =>
    cases store with
    | unavailable => exact cacheGet_set_self _ _ _ hget
    | queryError => exact cacheGet_set_self _ _ _ hget
    | row firstName lastName =>
      by_cases hname : jsTruthy firstName || jsTruthy lastName
      · simp only [hname, if_true]
        exact cacheGet_set_self _ _ _ hget
      · simp only [hname, if_false]
        exact cacheGet_set_self _ _ _ hget
    | noRow => exact cacheGet_set_self _ _ _ hget

private lemma resolveContactName_hit (cache : NameCache) (store : ContactsLookup)
    (id v : String) (h : cacheGet cache id = some v) :
    resolveContactName cache store id = (v, cache) := by
  unfold resolveContactName
  rw [h]

/-- **C6.** `resolveContactName` is a total function of the observed
store outcome (so no lookup outcome escapes as an exception);
store-unavailable, lookup failure and not-found all return the
`formatPhoneForDisplay` fallback; every call leaves its result cached
under the original identifier; and a second call with the same
identifier returns exactly the first call's value with the state
untouched, whatever the contacts store would have answered (it is never
consulted). -/
theorem resolveContactName_spec (cache : NameCache) (o₁ o₂ : ContactsLookup)
    (id : String) :
    cacheGet (resolveContactName cache o₁ id).2 id
      = some (resolveContactName cache o₁ id).1
  ∧ resolveContactName (resolveContactName cache o₁ id).2 o₂ id
      = ((resolveContactName cache o₁ id).1, (resolveContactName cache o₁ id).2)
  ∧ (cacheGet cache id = none →
      (resolveContactName cache .unavailable id).1 = formatPhoneForDisplay (some id)
    ∧ (resolveContactName cache .queryError id).1 = formatPhoneForDisplay (some id)
    ∧ (resolveContactName cache .noRow id).1 = formatPhoneForDisplay (some id)) := by
  refine ⟨resolveContactName_caches cache o₁ id, ?_, ?_⟩
  · exact resolveContactName_hit _ o₂ id _ (resolveContactName_caches cache o₁ id)
  · intro hmiss
    refine ⟨?_, ?_, ?_⟩ <;> (unfold resolveContactName; rw [hmiss])

/-- Witness for C6 on the empty cache. -/
theorem resolveContactName_spec_witness :
    cacheGet ([] : NameCache) "5551234" = none ∧
    (resolveContactName [] .unavailable "5551234").1
      = formatPhoneForDisplay (some "5551234") :=
  ⟨rfl, ((resolveContactName_spec [] .unavailable .queryError "5551234").2.2 rfl).1⟩

/-! ## C8: the keyword scanner's selection -/

lemma natContains_iff_mem {l : List Nat} {x : Nat} : l.contains x = true ↔ x ∈ l := by
  simp

/-- **C8.** A message is selected by the sentiment scan exactly when it
is in the window, not self-sent, has non-null non-empty text, and some
configured keyword is a case-insensitive substring of that text (OR over
the keywords); self-sent messages are never selected; and supplying no
keyword list makes the scan use the fixed default hostile-keyword list.
(The hypothesis excludes an explicitly empty keyword list, which in the
source produces malformed SQL rather than a result.) -/
theorem analyzeSentiment_mem_iff (db : DB) (handleIds : List Nat)
    (keywords : Option (List String)) (threshold : Int) (m : Msg)
    (_hk : keywords ≠ some []) :
    (m ∈ analyzeSentimentMessages db handleIds keywords threshold ↔
      m ∈ db.messages ∧ m.handle_id ∈ handleIds ∧ threshold < m.date ∧
      m.is_from_me = false ∧
      ∃ t, m.text = some t ∧ t ≠ "" ∧
        ∃ kw ∈ (match keywords with | none => defaultKeywords | some ks => ks),
          likeContains (lowerAscii t) (lowerAscii kw) = true)
  ∧ analyzeSentimentMessages db handleIds none threshold
      = analyzeSentimentMessages db handleIds (some defaultKeywords) threshold := by
  refine ⟨?_, rfl⟩
  unfold analyzeSentimentMessages keywordMatch
  rw [List.mem_insertionSort, List.mem_filter]
  cases htext : m.text with
  | none => simp [textPresent, htext]
  | some t =>
    simp only [textPresent, htext, Bool.and_eq_true, decide_eq_true_eq,
      Bool.not_eq_true', Option.getD_some, List.any_eq_true, natContains_iff_mem]
    constructor
    · rintro ⟨hmem, ⟨⟨⟨hhandle, hdate⟩, hself⟩, hne⟩, kw, hkw, hlike⟩
      exact ⟨hmem, hhandle, hdate, hself, t, rfl, hne, kw, hkw, hlike⟩
    · rintro ⟨hmem, hhandle, hdate, hself, t', ht', hne, kw, hkw, hlike⟩
      cases ht'
      exact ⟨hmem, ⟨⟨⟨hhandle, hdate⟩, hself⟩, hne⟩, kw, hkw, hlike⟩

/-- A concrete hostile incoming message for the C8 witness. -/
def c8Msg : Msg :=
  { rowid := 1, handle_id := 1, date := 5, text := some "I HATE this"
    attributedBody := none, is_from_me := false, service := "SMS" }

/-- Store holding `c8Msg`. -/
def c8Db : DB :=
  { handles := [⟨1, "+15551234", "SMS"⟩]
    messages := [c8Msg], chats := [], chatJoins := [] }

/-- Witness for C8: an upper-case occurrence of the default keyword
`hate` from a non-self sender is selected when no keywords are supplied. -/
theorem analyzeSentiment_mem_iff_witness :
    (none ≠ some ([] : List String)) ∧
    c8Msg ∈ analyzeSentimentMessages c8Db [1] none 0 := by
  refine ⟨by simp, ?_⟩
  exact (analyzeSentiment_mem_iff c8Db [1] none 0 c8Msg (by simp)).1.mpr
    ⟨by decide, by decide, by decide, by decide, "I HATE this", rfl, by decide,
     "hate", by decide, by decide⟩

/-! ## C9: `read_conversation` on a nonexistent group -/

/-- **C9 (amended).** `read_conversation` on a `group:<id>` that matches
no chat row raises no store exception, but it also produces no distinct
NotFound outcome: it returns an **ordinary** group conversation result,
with the fallback name `Group <id>` and an empty message list —
indistinguishable from an existing group with no recent messages. -/
theorem readConversation_missing_group (db : DB) (cm : List ContactMatch)
    (resolveName : Option String → String) (identifier : String)
    (limit : Nat) (threshold : Int) (includeSent : Bool) (n : Nat)
    (hgrp : isGroupIdentifier identifier = true)
    (hid : parseGroupId identifier = some n)
    (hchat : ∀ c ∈ db.chats, c.rowid ≠ n)
    (hjoin : ∀ j ∈ db.chatJoins, j.chat_id ≠ n) :
    readConversation db cm resolveName identifier limit threshold includeSent
      = .ok (.group ("Group " ++ toString n) (some n) []) := by
  have hfind : (db.chats.find? fun c => c.rowid == n) = none := by
    rw [List.find?_eq_none]
    intro c hc
    simpa using hchat c hc
  have hmsgs : fetchGroupMessages db (some n) threshold limit includeSent = [] := by
    unfold fetchGroupMessages
    have hfil : (db.messages.filter fun m =>
        inChat db (some n) m && decide (threshold < m.date) && textPresent m &&
        (includeSent || !m.is_from_me)) = [] := by
      rw [List.filter_eq_nil_iff]
      intro m _
      have hin : inChat db (some n) m = false := by
        unfold inChat
        rw [List.any_eq_false]
        intro j hj
        simp [hjoin j hj]
      simp [hin]
    rw [hfil]
    simp [List.insertionSort]
  unfold readConversation
  rw [if_pos hgrp, hid]
  simp [hfind, hmsgs, groupFallbackName]

/-- Store for the C9 scenario: one live chat (`ROWID = 5`) and no chat
numbered 999999. -/
def c9Db : DB :=
  { handles := [⟨1, "+15551234", "iMessage"⟩]
    messages := [⟨1, 1, 5, some "hello", none, false, "iMessage"⟩]
    chats := [⟨5, some "Family", "chat5"⟩]
    chatJoins := [⟨5, 1⟩] }

/-- **C9 counterexample.** `read_conversation` with `group:999999` on a
store with no such group returns an ordinary conversation result (an
`ok` group named `Group 999999` with zero messages) — not a distinct
NotFound-shaped outcome a caller could branch on. -/
theorem readConversation_missing_group_counterexample :
    readConversation c9Db [] (fun _ => "X") "group:999999" 50 0 true
      = .ok (.group "Group 999999" (some 999999) []) ∧
    (∀ c ∈ c9Db.chats, c.rowid ≠ 999999) := by
  refine ⟨?_, by decide⟩
  rfl

/-- Witness for C9's amended statement at the concrete store. -/
theorem readConversation_missing_group_witness :
    isGroupIdentifier "group:999999" = true ∧
    readConversation c9Db [] (fun _ => "Y") "group:999999" 50 0 true
      = .ok (.group "Group 999999" (some 999999) []) :=
  ⟨by decide,
   readConversation_missing_group c9Db [] (fun _ => "Y") "group:999999" 50 0 true
     999999 (by decide) (by decide) (by decide) (by decide)⟩

/-! ## C7: the minimal tier -/

/-- **C7 (amended).** The minimal tier emits, per conversation, one
header line followed by one line for each of **at most the first 3**
fetched messages; every message line embeds its message's text **in
full** (no character budget, no ellipsis marker). -/
theorem formatMinimal_lines (ft : Int → String) (r : SearchResult) :
    (minimalMessageLines ft r).length = min (resultMessageCount r) 3
  ∧ (∀ line ∈ minimalMessageLines ft r, ∃ pre t, t ∈ resultTexts r ∧ line = pre ++ t)
  ∧ minimalBlock ft r
      = minimalHeader r ++ "\n" ++ String.intercalate "\n" (minimalMessageLines ft r) := by
  refine ⟨?_, ?_, rfl⟩
  · cases r with
    | individual contact identifier handles count msgs =>
      simp [minimalMessageLines, resultMessageCount, Nat.min_comm]
    | group name id count msgs =>
      simp [minimalMessageLines, resultMessageCount, Nat.min_comm]
  · cases r with
    | individual contact identifier handles count msgs =>
      intro line hline
      simp only [minimalMessageLines, List.mem_map] at hline
      obtain ⟨m, hm, rfl⟩ := hline
      exact ⟨"  " ++ ft m.date ++ " " ++ (if m.is_from_me then "You" else contact)
          ++ ": ", m.text,
        List.mem_map.mpr ⟨m, List.take_subset _ _ hm, rfl⟩, rfl⟩
    | group name id count msgs =>
      intro line hline
      simp only [minimalMessageLines, List.mem_map] at hline
      obtain ⟨m, hm, rfl⟩ := hline
      exact ⟨"  " ++ ft m.date ++ " " ++ m.sender ++ ": ", m.text,
        List.mem_map.mpr ⟨m, List.take_subset _ _ hm, rfl⟩, rfl⟩

/-- A conversation with four fetched messages, one of them long. -/
def c7Res : SearchResult :=
  .individual "Ann" "+15551234" 2 4
    [⟨1, "This is a deliberately long message body that keeps going well past any eighty character budget with no ellipsis at all", false, "SMS"⟩,
     ⟨2, "two", true, "SMS"⟩,
     ⟨3, "three", false, "SMS"⟩,
     ⟨4, "four", true, "SMS"⟩]

set_option maxRecDepth 8000 in
/-- **C7 counterexample.** On a conversation with 4 fetched messages the
minimal tier prints only 3 message lines (not one per fetched message),
and a line carries a 119-character text untruncated (length ≥ 119,
far above any 60–80 character budget), with no ellipsis added. -/
theorem formatMinimal_counterexample :
    (minimalMessageLines (fun _ => "1/1 0:00") c7Res).length = 3 ∧
    resultMessageCount c7Res = 4 ∧
    ∃ line ∈ minimalMessageLines (fun _ => "1/1 0:00") c7Res, 119 ≤ line.length := by
  refine ⟨by decide, by decide, ?_⟩
  decide

/-- Witness for C7's amended statement at the concrete conversation. -/
theorem formatMinimal_lines_witness :
    (minimalMessageLines (fun _ => "t") c7Res).length = min (resultMessageCount c7Res) 3 :=
  (formatMinimal_lines (fun _ => "t") c7Res).1

/-! ## C1 and C10: dedup invariants of the grouping map -/

private lemma fst_insertHandle (g : List (String × List Nat)) (hid : String) (rid : Nat) :
    (insertHandle g hid rid).map Prod.fst
      = if g.any (fun p => p.1 == hid) then g.map Prod.fst
        else g.map Prod.fst ++ [hid] := by
  unfold insertHandle
  by_cases h : g.any (fun p => p.1 == hid)
  · rw [if_pos h, if_pos h, List.map_map]
    apply List.map_congr_left
    intro p _
    show Prod.fst (if p.1 == hid then _ else p) = p.1
    split <;> rfl
  · rw [if_neg h, if_neg h, List.map_append]
    rfl

private lemma any_key_iff (g : List (String × List Nat)) (hid : String) :
    g.any (fun p => p.1 == hid) = true ↔ hid ∈ g.map Prod.fst := by
  rw [List.any_eq_true]
  constructor
  · rintro ⟨p, hp, hbeq⟩
    exact List.mem_map.mpr ⟨p, hp, by simpa using hbeq⟩
  · intro h
    obtain ⟨p, hp, rfl⟩ := List.mem_map.mp h
    exact ⟨p, hp, by simp⟩

private lemma nodup_keys_insertHandle (g : List (String × List Nat))
    (hid : String) (rid : Nat) (h : (g.map Prod.fst).Nodup) :
    ((insertHandle g hid rid).map Prod.fst).Nodup := by
  rw [fst_insertHandle]
  by_cases hany : g.any (fun p => p.1 == hid)
  · rwa [if_pos hany]
  · rw [if_neg hany]
    have hnot : hid ∉ g.map Prod.fst := by
      rw [← any_key_iff]
      simpa using hany
    simp [List.nodup_append, h, hnot]

private lemma values_insertHandle (g : List (String × List Nat))
    (hid : String) (rid : Nat) (h : ∀ p ∈ g, p.2.Nodup ∧ p.2 ≠ []) :
    ∀ p ∈ insertHandle g hid rid, p.2.Nodup ∧ p.2 ≠ [] := by
  unfold insertHandle
  by_cases hany : g.any (fun p => p.1 == hid)
  · rw [if_pos hany]
    intro p hp
    rw [List.mem_map] at hp
    obtain ⟨q, hq, rfl⟩ := hp
    by_cases hq1 : q.1 == hid
    · simp only [hq1, if_true]
      by_cases hc : q.2.contains rid
      · simp only [hc, if_true]
        exact h q hq
      · simp only [hc, if_false]
        have hnot : rid ∉ q.2 := fun hm => hc (natContains_iff_mem.mpr hm)
        exact ⟨by simp [List.nodup_append, (h q hq).1, hnot],
          List.append_ne_nil_of_right_ne_nil _ (List.cons_ne_nil _ _)⟩
    · simp only [hq1, if_false]
      exact h q hq
  · rw [if_neg hany]
    intro p hp
    rw [List.mem_append] at hp
    rcases hp with hp | hp
    · exact h p hp
    · simp only [List.mem_singleton] at hp
      subst hp
      exact ⟨List.nodup_singleton rid, List.cons_ne_nil _ _⟩

private lemma inner_fold_invariant (hs : List Handle) :
    ∀ g₀ : List (String × List Nat),
      ((g₀.map Prod.fst).Nodup ∧ ∀ p ∈ g₀, p.2.Nodup ∧ p.2 ≠ []) →
      (((hs.foldl (fun g h => insertHandle g h.id h.rowid) g₀).map Prod.fst).Nodup ∧
        ∀ p ∈ hs.foldl (fun g h => insertHandle g h.id h.rowid) g₀,
          p.2.Nodup ∧ p.2 ≠ []) := by
  induction hs with
  | nil => intro g₀ h; exact h
  | cons a t ih =>
    intro g₀ h
    rw [List.foldl_cons]
    exact ih _ ⟨nodup_keys_insertHandle _ _ _ h.1, values_insertHandle _ _ _ h.2⟩

private lemma buildContactGroups_invariant (db : DB) (terms : List String) :
    ((buildContactGroups db terms).map Prod.fst).Nodup ∧
      ∀ p ∈ buildContactGroups db terms, p.2.Nodup ∧ p.2 ≠ [] := by
  unfold buildContactGroups
  have main : ∀ (ts : List String) (g₀ : List (String × List Nat)),
      ((g₀.map Prod.fst).Nodup ∧ ∀ p ∈ g₀, p.2.Nodup ∧ p.2 ≠ []) →
      (((ts.foldl (fun g t =>
            (handlesForTerm db t).foldl (fun g h => insertHandle g h.id h.rowid) g)
          g₀).map Prod.fst).Nodup ∧
        ∀ p ∈ ts.foldl (fun g t =>
            (handlesForTerm db t).foldl (fun g h => insertHandle g h.id h.rowid) g)
          g₀, p.2.Nodup ∧ p.2 ≠ []) := by
    intro ts
    induction ts with
    | nil => intro g₀ h; exact h
    | cons t ts ih =>
      intro g₀ h
      rw [List.foldl_cons]
      exact ih _ (inner_fold_invariant (handlesForTerm db t) g₀ h)
  exact main terms [] ⟨List.nodup_nil, fun p hp => absurd hp (List.not_mem_nil p)⟩

private lemma individualEntry_some (db : DB) (rn : String → String)
    (thr : Int) (lim : Nat) (g : String × List Nat) (r : IndividualResult)
    (h : individualEntry db rn thr lim g = some r) :
    r.identifier = g.1 ∧ r.handles = g.2.length := by
  unfold individualEntry at h
  by_cases h1 : g.2.isEmpty
  · rw [if_pos h1] at h
    cases h
  · rw [if_neg h1] at h
    by_cases h2 : (fetchMessages db g.2 thr lim).isEmpty
    · rw [if_pos h2] at h
      cases h
    · rw [if_neg h2] at h
      cases h
      exact ⟨rfl, rfl⟩

private lemma individualEntry_isSome (db : DB) (rn : String → String)
    (thr : Int) (lim : Nat) (g : String × List Nat)
    (hne : g.2 ≠ []) (hmsgs : fetchMessages db g.2 thr lim ≠ []) :
    ∃ r, individualEntry db rn thr lim g = some r ∧ r.identifier = g.1 := by
  unfold individualEntry
  rw [if_neg (by simpa using hne), if_neg (by simpa using hmsgs)]
  exact ⟨_, rfl, rfl⟩

private lemma map_identifier_sublist (db : DB) (rn : String → String)
    (thr : Int) (lim : Nat) :
    ∀ gs : List (String × List Nat),
      ((gs.filterMap (individualEntry db rn thr lim)).map
          (·.identifier)).Sublist (gs.map Prod.fst) := by
  intro gs
  induction gs with
  | nil => simp
  | cons g t ih =>
    rw [List.filterMap_cons]
    cases he : individualEntry db rn thr lim g with
    | none =>
      rw [List.map_cons]
      exact ih.cons _
    | some r =>
      rw [List.map_cons, List.map_cons,
        (individualEntry_some db rn thr lim g r he).1]
      exact ih.cons₂ _

/-- **C1 (amended).** The individual results of `searchAndRead` carry
pairwise-distinct canonical keys (raw identifiers); their number never
exceeds the number of distinct canonical keys in the grouping map; each
result's `handles` field is the size of its key's **collected**
duplicate-free handle-id set (collected through the 10-row-per-term
handle queries — see C10 for why this can undercount); and every
canonical key of the map with at least one qualifying message produces a
result — so a key with messages produces exactly one result. -/
theorem searchAndRead_one_result_per_key (db : DB) (cm : List ContactMatch)
    (rn : String → String) (query : String) (limit : Nat) (threshold : Int) :
    ((searchAndReadIndividuals db cm rn query limit threshold).map
        (·.identifier)).Nodup
  ∧ (searchAndReadIndividuals db cm rn query limit threshold).length
      ≤ (buildContactGroups db (searchTermsOf query cm)).length
  ∧ (∀ r ∈ searchAndReadIndividuals db cm rn query limit threshold,
      ∃ hids, (r.identifier, hids) ∈ buildContactGroups db (searchTermsOf query cm)
        ∧ r.handles = hids.length ∧ hids.Nodup ∧ hids ≠ [])
  ∧ (∀ k hids,
      (k, hids) ∈ buildContactGroups db (searchTermsOf query cm) →
      fetchMessages db hids threshold limit ≠ [] →
      ∃ r ∈ searchAndReadIndividuals db cm rn query limit threshold,
        r.identifier = k) := by
  refine ⟨?_, ?_, ?_, ?_⟩
  · exact ((map_identifier_sublist db rn threshold limit _).nodup
      (buildContactGroups_invariant db (searchTermsOf query cm)).1)
  · exact List.length_filterMap_le _ _
  · intro r hr
    obtain ⟨g, hg, he⟩ := List.mem_filterMap.mp hr
    obtain ⟨hid, hhandles⟩ := individualEntry_some db rn threshold limit g r he
    have hinv := (buildContactGroups_invariant db (searchTermsOf query cm)).2 g hg
    refine ⟨g.2, ?_, hhandles, hinv.1, hinv.2⟩
    rw [hid, Prod.mk.eta]
    exact hg
  · intro k hids hg hmsgs
    have hinv := (buildContactGroups_invariant db (searchTermsOf query cm)).2 _ hg
    obtain ⟨r, he, hid⟩ := individualEntry_isSome db rn threshold limit (k, hids)
      hinv.2 hmsgs
    exact ⟨r, List.mem_filterMap.mpr ⟨(k, hids), hg, he⟩, hid⟩

/-- Eleven handle rows sharing the raw identifier `+15551234`. -/
def capHandles : List Handle :=
  [⟨1, "+15551234", "SMS"⟩, ⟨2, "+15551234", "iMessage"⟩, ⟨3, "+15551234", "RCS"⟩,
   ⟨4, "+15551234", "SMS"⟩, ⟨5, "+15551234", "iMessage"⟩, ⟨6, "+15551234", "RCS"⟩,
   ⟨7, "+15551234", "SMS"⟩, ⟨8, "+15551234", "iMessage"⟩, ⟨9, "+15551234", "RCS"⟩,
   ⟨10, "+15551234", "SMS"⟩, ⟨11, "+15551234", "iMessage"⟩]

/-- Store with the eleven same-identifier handles and one message. -/
def capDb : DB :=
  { handles := capHandles
    messages := [⟨1, 1, 5, some "hi", none, false, "SMS"⟩]
    chats := [], chatJoins := [] }

/-- **C1 counterexample.** With a single search term matching 11 handle
records that all share one raw identifier (N = 11), `searchAndRead`
emits one result whose `handles` field is 10, not N: the per-term handle
query is capped at 10 rows. -/
theorem searchAndRead_handles_counterexample :
    ((searchAndReadIndividuals capDb [] (fun s => s) "5551234" 30 0).map
        (·.handles)) = [10]
  ∧ (capDb.handles.filter (handleMatches "5551234")).length = 11
  ∧ (10 : Nat) ≠ 11 := by
  refine ⟨?_, by decide, by decide⟩
  decide

/-- Witness for C1's amended statement: the concrete 11-handle store
yields exactly one entry for the canonical key `+15551234`. -/
theorem searchAndRead_one_result_per_key_witness :
    ∃ r ∈ searchAndReadIndividuals capDb [] (fun s => s) "5551234" 30 0,
      r.identifier = "+15551234" := by
  apply (searchAndRead_one_result_per_key capDb [] (fun s => s) "5551234" 30 0).2.2.2
    "+15551234" [1, 2, 3, 4, 5, 6, 7, 8, 9, 10]
  · decide
  · decide

/-! ## C10: the 10-row cap of the per-term handle query -/

private lemma insert_same_key_fold (k : String) :
    ∀ (hs : List Handle) (acc : List Nat), (∀ h ∈ hs, h.id = k) →
      hs.foldl (fun g h => insertHandle g h.id h.rowid) [(k, acc)]
        = [(k, hs.foldl
            (fun l h => if l.contains h.rowid then l else l ++ [h.rowid]) acc)] := by
  intro hs
  induction hs with
  | nil => intro acc _; rfl
  | cons h t ih =>
    intro acc hall
    have hk : h.id = k := hall h (List.mem_cons_self h t)
    rw [List.foldl_cons, List.foldl_cons, hk]
    have hstep : insertHandle [(k, acc)] k h.rowid
        = [(k, if acc.contains h.rowid then acc else acc ++ [h.rowid])] := by
      unfold insertHandle
      rw [if_pos (by simp)]
      simp
    rw [hstep]
    exact ih _ fun x hx => hall x (List.mem_cons_of_mem h hx)

private lemma foldl_scalarInsert :
    ∀ (hs : List Handle) (acc : List Nat),
      (∀ x ∈ hs, x.rowid ∉ acc) → (hs.map (·.rowid)).Nodup →
      hs.foldl (fun l h => if l.contains h.rowid then l else l ++ [h.rowid]) acc
        = acc ++ hs.map (·.rowid) := by
  intro hs
  induction hs with
  | nil => intro acc _ _; simp
  | cons h t ih =>
    intro acc hnotin hnodup
    rw [List.foldl_cons]
    have hc : acc.contains h.rowid ≠ true := fun hc =>
      hnotin h (List.mem_cons_self h t) (natContains_iff_mem.mp hc)
    rw [if_neg hc]
    rw [List.map_cons] at hnodup
    have hcons := List.nodup_cons.mp hnodup
    have ht1 : ∀ x ∈ t, x.rowid ∉ acc ++ [h.rowid] := by
      intro x hx
      rw [List.mem_append, List.mem_singleton]
      rintro (hmem | heq)
      · exact hnotin x (List.mem_cons_of_mem h hx) hmem
      · exact hcons.1 (heq ▸ List.mem_map.mpr ⟨x, hx, rfl⟩)
    rw [ih (acc ++ [h.rowid]) ht1 hcons.2]
    simp

/-- **C10.** Each search term contributes at most 10 handle rows (the
handle query is `LIMIT 10`); and for a store whose rows matching a
term all share one raw identifier `k`, with more than 10 such rows, the
grouping map holds exactly the first 10 row ids under `k` — so the
reported handle count is 10, strictly smaller than the true number of
matching handle rows. -/
theorem handleQuery_cap (db : DB) (t k : String)
    (hall : ∀ h ∈ db.handles, handleMatches t h = true → h.id = k)
    (hnodup : (db.handles.map (·.rowid)).Nodup)
    (hcount : 10 < (db.handles.filter (handleMatches t)).length) :
    (∀ (db' : DB) (t' : String), (handlesForTerm db' t').length ≤ 10)
  ∧ ∃ hids, buildContactGroups db [t] = [(k, hids)]
      ∧ hids.length = 10
      ∧ hids.length < (db.handles.filter (handleMatches t)).length := by
  refine ⟨fun db' t' => ?_, ?_⟩
  · unfold handlesForTerm
    exact List.length_take_le 10 _
  · have hs_sub : ∀ h ∈ handlesForTerm db t, h ∈ db.handles.filter (handleMatches t) :=
      fun h hh => List.mem_of_mem_take hh
    have hs_ids : ∀ h ∈ handlesForTerm db t, h.id = k := by
      intro h hh
      have hm := List.mem_filter.mp (hs_sub h hh)
      exact hall h hm.1 hm.2
    have hs_len : (handlesForTerm db t).length = 10 := by
      unfold handlesForTerm
      rw [List.length_take]
      omega
    have hs_nodup : ((handlesForTerm db t).map (·.rowid)).Nodup := by
      have h1 : (handlesForTerm db t).Sublist db.handles :=
        (List.take_sublist _ _).trans (List.filter_sublist _)
      exact (h1.map _).nodup hnodup
    have hb : buildContactGroups db [t]
        = (handlesForTerm db t).foldl (fun g h => insertHandle g h.id h.rowid) [] := by
      unfold buildContactGroups
      rfl
    cases hhs : handlesForTerm db t with
    | nil => rw [hhs] at hs_len; simp at hs_len
    | cons h0 hrest =>
      have h0k : h0.id = k := hs_ids h0 (hhs ▸ List.mem_cons_self h0 hrest)
      have hfirst : insertHandle [] h0.id h0.rowid = [(k, [h0.rowid])] := by
        unfold insertHandle
        rw [if_neg (by simp)]
        simp [h0k]
      have hnn : ((h0 :: hrest).map (·.rowid)).Nodup := hhs ▸ hs_nodup
      rw [List.map_cons] at hnn
      have hcons := List.nodup_cons.mp hnn
      rw [hb, hhs, List.foldl_cons, hfirst,
        insert_same_key_fold k hrest [h0.rowid]
          (fun x hx => hs_ids x (hhs ▸ List.mem_cons_of_mem h0 hx)),
        foldl_scalarInsert hrest [h0.rowid]
          (fun x hx => by
            rw [List.mem_singleton]
            intro heq
            exact hcons.1 (heq ▸ List.mem_map.mpr ⟨x, hx, rfl⟩))
          hcons.2]
      refine ⟨h0.rowid :: hrest.map (·.rowid), by simp, ?_, ?_⟩
      · have : (h0 :: hrest).length = 10 := hhs ▸ hs_len
        simp only [List.length_cons, List.length_map]
        simp only [List.length_cons] at this
        omega
      · have : (h0 :: hrest).length = 10 := hhs ▸ hs_len
        simp only [List.length_cons, List.length_map]
        simp only [List.length_cons] at this
        omega

/-- Witness for C10 at the concrete 11-handle store. -/
theorem handleQuery_cap_witness :
    ∃ hids, buildContactGroups capDb ["5551234"] = [("+15551234", hids)]
      ∧ hids.length = 10
      ∧ hids.length < (capDb.handles.filter (handleMatches "5551234")).length :=
  (handleQuery_cap capDb "5551234" "+15551234"
    (by decide) (by decide) (by decide)).2

end IMessage
